import Mathlib

/-!
Verification of the message-to-model-request conversion pipeline of the
cherry-studio-app repository.

The repository contains three coexisting variants of the conversion module
`aiCore/prepareParams/messageConverter.ts`:

* namespace `MC`  — the variant stored at `src/aiCore/prepareParams/messageConverter.ts`
  ("independent emission" tool pairing: every tool block yields a tool-call part,
  plus a tool-result part when a result is present);
* namespace `V1`  — the variant with the "one block → at most one part" tool pairing
  (`convertToolBlockToToolPart`), a `tool`-role message path, and a per-compilation
  tool-call-id cache (`getToolCallId` / `clearToolCallIdCache`);
* namespace `V2`  — the variant with the tool-history replay
  (`buildToolHistoryMessages`).

External collaborators (file system reads, the file processor, JSON parsing from
the `@ai-sdk` library, model capability lookup) are modelled as function
parameters / record fields, exactly at the interface boundary the source uses.
JavaScript runtime values are modelled as follows: `undefined`/`null` as
`Option` (with JSON `null` identified with JS `null`, as the two are the same
value in JavaScript), structured values as a JSON tree, machine exceptions
(the `TypeError` raised by the non-null regex assertion in the image
materializer) as `Except` errors.
-/

/-- A JSON-like JavaScript value (string, number, boolean, null, array, object
with insertion-ordered fields).  Numbers are modelled as integers; every value
appearing in the claims is integral. -/
inductive JsonVal where
  | str (s : String)
  | num (n : Int)
  | bool (b : Bool)
  | null
  | arr (elems : List JsonVal)
  | obj (fields : List (String × JsonVal))

/-- Escaping of one character inside a JSON string literal, as performed by
`JSON.stringify` (quotation mark, reverse solidus and the common control
characters; other characters pass through). -/
def escapeJsonChar (c : Char) : String :=
  if c = '"' then "\\\""
  else if c = '\\' then "\\\\"
  else if c = '\n' then "\\n"
  else if c = '\r' then "\\r"
  else if c = '\t' then "\\t"
  else String.singleton c

/-- Escape a whole string for inclusion in a JSON document. -/
def escapeJsonString (s : String) : String :=
  String.join (s.toList.map escapeJsonChar)

mutual

/-- Canonical JSON serialization: models JavaScript's `JSON.stringify` on the
`JsonVal` fragment (no spacing, object key order preserved as given). -/
def JsonVal.stringify : JsonVal → String
  | .str s => "\"" ++ escapeJsonString s ++ "\""
  | .num n => toString n
  | .bool b => if b then "true" else "false"
  | .null => "null"
  | .arr elems => "[" ++ stringifyArr elems ++ "]"
  | .obj fields => "\x7b" ++ stringifyObj fields ++ "\x7d"

/-- Comma-joined serialization of JSON array elements. -/
def stringifyArr : List JsonVal → String
  | [] => ""
  | [v] => v.stringify
  | v :: rest => v.stringify ++ "," ++ stringifyArr rest

/-- Comma-joined serialization of JSON object fields. -/
def stringifyObj : List (String × JsonVal) → String
  | [] => ""
  | [kv] => "\"" ++ escapeJsonString kv.1 ++ "\":" ++ kv.2.stringify
  | kv :: rest => "\"" ++ escapeJsonString kv.1 ++ "\":" ++ kv.2.stringify ++ "," ++ stringifyObj rest

end

/-- Roles of both source conversation messages and compiled request messages. -/
inductive Role where
  | system
  | user
  | assistant
  | tool
deriving DecidableEq, Repr

/-- Payload of a request file part: either a string (possibly a provider-side
`fileid://` handle) or opaque binary data. -/
inductive FileData where
  | str (s : String)
  | bytes (b : List Nat)
deriving DecidableEq, Repr

/-- The `output` field of a tool-result part.  The three source variants build
three different shapes: `raw` (a bare string, the one-part pairing variant),
`text`/`json` (the tagged output of `messageConverter.ts`'s
`convertToolBlockToToolResultPart`) and `replay` (the `text`/`error-text`
tagged output of the history-replay variant, whose value can be `undefined`
when `JSON.stringify` is applied to `undefined`). -/
inductive ToolOutput where
  | raw (s : String)
  | text (value : String)
  | json (value : JsonVal)
  | replay (isErrorText : Bool) (value : Option String)

/-- One compiled request part.  `toolCallId`, `toolName` and `input` are
optional because the JavaScript sources can place `undefined` in each of those
fields. -/
inductive RequestPart where
  | text (text : String)
  | reasoning (text : String)
  | image (image : String) (mediaType : Option String)
  | file (data : FileData) (mediaType : String)
  | toolCall (toolCallId : Option String) (toolName : Option String) (input : Option JsonVal)
  | toolResult (toolCallId : Option String) (toolName : Option String) (output : ToolOutput)

/-- Content of a compiled request message: a plain string or a part list. -/
inductive MsgContent where
  | str (s : String)
  | parts (ps : List RequestPart)

/-- A compiled request message (the AI SDK's `ModelMessage`). -/
structure ModelMessage where
  role : Role
  content : MsgContent

/-- The local-file reference of an image block. -/
structure ImageFileRef where
  path : String
deriving DecidableEq, Repr

/-- An image content block: an owned local file reference or a (possibly
data-URL) remote reference. -/
structure ImageMessageBlock where
  file : Option ImageFileRef
  url : Option String
deriving DecidableEq, Repr

/-- A file content block.  The conversion layer treats it opaquely, passing it
to the external file-processor collaborator; only an identifier is needed. -/
structure FileMessageBlock where
  id : String
deriving DecidableEq, Repr

/-- A reasoning ("thinking") content block. -/
structure ThinkingMessageBlock where
  content : String
deriving DecidableEq, Repr

/-- A tool content block.  `toolId`, `toolName`, `arguments` and `content`
model the corresponding optional fields of `ToolMessageBlock`; `arguments` is
a structured object (keyed fields), `content` an arbitrary JS value. -/
structure ToolMessageBlock where
  id : String
  toolId : Option String
  toolName : Option String
  arguments : Option (List (String × JsonVal))
  content : Option JsonVal

/-- A native request file part produced by the external file processor
(`convertFileBlockToFilePart`). -/
structure FilePartData where
  data : FileData
  mediaType : String
deriving DecidableEq, Repr

/-- Target model descriptor.  The external capability lookups
`isVisionModel` / `isImageEnhancementModel` are modelled as fields. -/
structure Model where
  isVision : Bool
  isImageEnhancement : Bool
deriving DecidableEq, Repr

/-- A source conversation message.  The block-extractor collaborators
(`getMainTextContent`, `findFileBlocks`, `findImageBlocks`,
`findThinkingBlocks`, `findToolBlocks`) are modelled as fields holding their
results. -/
structure Message where
  role : Role
  content : String
  fileBlocks : List FileMessageBlock
  imageBlocks : List ImageMessageBlock
  thinkingBlocks : List ThinkingMessageBlock
  toolBlocks : List ToolMessageBlock

/-- A conversion-aborting JavaScript exception. -/
inductive ConvErr where
  /-- `TypeError` raised by `url.match(...)![1]` when the data-URL regex does
  not match (`null[1]` dereference). -/
  | nullMatchAccess (url : String)
  /-- Dereference of an `undefined` intermediate in the image-enhancement
  post-pass (no assistant/user message among the final two compiled
  messages). -/
  | undefinedAccess
deriving DecidableEq, Repr

/-- JS truthiness of a possibly-undefined string (`undefined`, `null` and the
empty string are falsy). -/
def strTruthy : Option String → Bool
  | some s => !(s.isEmpty)
  | none => false

/-- `a || b` on a possibly-undefined string with a string default. -/
def jsOr (a : Option String) (b : String) : String :=
  match a with
  | some s => if s.isEmpty then b else s
  | none => b

/-- `content !== undefined && content !== null` (JSON `null` is the JS
`null`). -/
def contentPresent : Option JsonVal → Bool
  | none => false
  | some .null => false
  | some _ => true

/-- `toolBlock.arguments && Object.keys(toolBlock.arguments).length > 0`. -/
def argsNonempty (b : ToolMessageBlock) : Bool :=
  match b.arguments with
  | some kvs => kvs.length > 0
  | none => false

/-- Character-list prefix test (the semantics of JavaScript's
`String.prototype.startsWith`). -/
def listIsPrefixOf : List Char → List Char → Bool
  | [], _ => true
  | _ :: _, [] => false
  | p :: ps, c :: cs => p == c && listIsPrefixOf ps cs

/-- `s.startsWith(pre)` in JavaScript. -/
def jsStartsWith (s pre : String) : Bool :=
  listIsPrefixOf pre.data s.data

/-- The parts of a compiled message (empty for string content). -/
def partsOf (m : ModelMessage) : List RequestPart :=
  match m.content with
  | .str _ => []
  | .parts ps => ps

/-- Is this part a `tool-call` part? -/
def RequestPart.isToolCallPart : RequestPart → Bool
  | .toolCall _ _ _ => true
  | _ => false

/-- Is this part a `tool-result` part? -/
def RequestPart.isToolResultPart : RequestPart → Bool
  | .toolResult _ _ _ => true
  | _ => false

/-- The output of a tool-result part, when the part is one. -/
def RequestPart.toolOutput : RequestPart → Option ToolOutput
  | .toolResult _ _ o => some o
  | _ => none

/-- The bare-string output of a one-part-variant tool-result. -/
def RequestPart.rawOutput : RequestPart → Option String
  | .toolResult _ _ (.raw s) => some s
  | _ => none

/-- Count the parts satisfying `p` across a compiled message list. -/
def countParts (p : RequestPart → Bool) (msgs : List ModelMessage) : Nat :=
  (msgs.flatMap partsOf).countP (fun part => p part)

/-- View an optional part as a zero-or-one-element part list. -/
def optParts : Option RequestPart → List RequestPart
  | some p => [p]
  | none => []

/-- Decomposition of a string at the first `';'`: models the behaviour of the
regex `/^data:[^;]*;base64,(.+)$/` whose `[^;]*` group can only stop at the
first semicolon. -/
def splitFirstSemi : List Char → Option (List Char × List Char)
  | [] => none
  | c :: rest =>
    if c = ';' then some ([], rest)
    else
      match splitFirstSemi rest with
      | some (pre, post) => some (c :: pre, post)
      | none => none

/-- The match of `/^data:[^;]*;base64,(.+)$/` against a URL: returns the mime
segment and the captured base64 payload when the regex matches, `none`
(JavaScript `null`) otherwise.  `.` does not match line terminators, so a
payload containing one defeats the `(.+)$` group. -/
def dataUrlMatch (url : String) : Option (String × String) :=
  if jsStartsWith url "data:" then
    let rest := url.data.drop 5
    match splitFirstSemi rest with
    | some (mime, post) =>
      if listIsPrefixOf "base64,".data post then
        let payload := post.drop 7
        if payload.isEmpty || payload.any (fun c => c == '\n' || c == '\r') then none
        else some (String.mk mime, String.mk payload)
      else none
    | none => none
  else none

/-- `convertImageBlockToImagePart` (textually identical in all three source
variants).  `readImage` models `new File(path)` + `await image.base64()` with
its media type (`none` = the read threw, caught, logged and skipped).  A URL
starting with `data:` that the base64 regex does not match makes the source
throw a `TypeError` (`match(...)![1]` on a `null` match), modelled as
`Except.error`. -/
def convertImageBlockToImagePart
    (readImage : String → Option (String × String)) :
    List ImageMessageBlock → Except ConvErr (List RequestPart)
  | [] => .ok []
  | imageBlock :: rest => do
    let headParts ←
      match imageBlock.file with
      | some f =>
        match readImage f.path with
        | some (b64, mediaType) => pure [RequestPart.image b64 (some mediaType)]
        | none => pure []
      | none =>
        match imageBlock.url with
        | some url =>
          if url.isEmpty then pure []
          else if jsStartsWith url "data:" then
            match dataUrlMatch url with
            | some (mime, payload) =>
              pure [RequestPart.image payload (some (if mime.isEmpty then "image/png" else mime))]
            | none => Except.error (.nullMatchAccess url)
          else pure [RequestPart.image url none]
        | none => pure []
    let tailParts ← convertImageBlockToImagePart readImage rest
    pure (headParts ++ tailParts)


/-- The per-file-block fallback chain shared by the assistant-message paths of
all three variants: try the native file conversion when a model is supplied
(`convertFileBlockToFilePart`, an external collaborator), otherwise fall back
to text extraction (`convertFileBlockToTextPart`); an unprocessable block is
dropped. -/
def assistantFileParts
    (toFilePart : FileMessageBlock → Model → Option FilePartData)
    (toTextPart : FileMessageBlock → Option String)
    (model : Option Model) (fileBlock : FileMessageBlock) : List RequestPart :=
  match model with
  | some m =>
    match toFilePart fileBlock m with
    | some filePart => [RequestPart.file filePart.data filePart.mediaType]
    | none =>
      match toTextPart fileBlock with
      | some s => [RequestPart.text s]
      | none => []
  | none =>
    match toTextPart fileBlock with
    | some s => [RequestPart.text s]
    | none => []

/-- The text-extraction fallback of the user-path file loop: an extracted
text part, or nothing (block dropped with a warning). -/
def userFileBlockFallback (toTextPart : FileMessageBlock → Option String)
    (fileBlock : FileMessageBlock) : List RequestPart :=
  match toTextPart fileBlock with
  | some s => [RequestPart.text s]
  | none => []

/-- One iteration of the user-path file loop: either the `fileid://` early
return (`Sum.inl` with the handle) or the parts the block appends
(`Sum.inr`: a native file part, or the text-extraction fallback). -/
def userFileBlockStep
    (toFilePart : FileMessageBlock → Model → Option FilePartData)
    (toTextPart : FileMessageBlock → Option String)
    (model : Option Model) (fileBlock : FileMessageBlock) :
    String ⊕ (List RequestPart) :=
  match model with
  | some m =>
    match toFilePart fileBlock m with
    | some filePart =>
      match filePart.data with
      | FileData.str s =>
        if jsStartsWith s "fileid://" then Sum.inl s
        else Sum.inr [RequestPart.file filePart.data filePart.mediaType]
      | FileData.bytes _ => Sum.inr [RequestPart.file filePart.data filePart.mediaType]
    | none => Sum.inr (userFileBlockFallback toTextPart fileBlock)
  | none => Sum.inr (userFileBlockFallback toTextPart fileBlock)

/-- The `fileBlocks` loop of `convertMessageToUserModelMessage` (textually
identical in all three source variants), one `userFileBlockStep` per block: a
`fileid://` handle triggers the early return (`Sum.inl`) with the handle and
the parts accumulated so far; otherwise the loop accumulates each block's
parts. -/
def processUserFileBlocks
    (toFilePart : FileMessageBlock → Model → Option FilePartData)
    (toTextPart : FileMessageBlock → Option String)
    (model : Option Model) :
    List FileMessageBlock → List RequestPart → (String × List RequestPart) ⊕ (List RequestPart)
  | [], parts => Sum.inr parts
  | fileBlock :: rest, parts =>
    match userFileBlockStep toFilePart toTextPart model fileBlock with
    | Sum.inl handle => Sum.inl (handle, parts)
    | Sum.inr newParts => processUserFileBlocks toFilePart toTextPart model rest (parts ++ newParts)

/-- `convertMessageToUserModelMessage` (textually identical in all three
source variants): text part for non-empty main text, image parts only for
vision-capable models, then the file-block loop.  The `fileid://` sentinel
splits the output into a `system` message carrying the handle followed by the
`user` message; otherwise a single `user` message is produced (wrapped in a
one-element list here, since every caller flattens). -/
def convertMessageToUserModelMessage
    (readImage : String → Option (String × String))
    (toFilePart : FileMessageBlock → Model → Option FilePartData)
    (toTextPart : FileMessageBlock → Option String)
    (content : String) (fileBlocks : List FileMessageBlock)
    (imageBlocks : List ImageMessageBlock)
    (isVisionModel : Bool) (model : Option Model) : Except ConvErr (List ModelMessage) :=
  match (if isVisionModel then convertImageBlockToImagePart readImage imageBlocks
         else Except.ok []) with
  | Except.error e => Except.error e
  | Except.ok imageParts =>
    match processUserFileBlocks toFilePart toTextPart model fileBlocks
        ((if content.isEmpty then [] else [RequestPart.text content]) ++ imageParts) with
    | Sum.inl (handle, accParts) =>
      Except.ok [⟨Role.system, MsgContent.str handle⟩,
        ⟨Role.user, if accParts.length > 0 then MsgContent.parts accParts else MsgContent.str ""⟩]
    | Sum.inr finalParts => Except.ok [⟨Role.user, MsgContent.parts finalParts⟩]

namespace MC

/-- `convertToolBlockToToolCallPart` of `src/aiCore/prepareParams/messageConverter.ts`:
unconditionally builds a tool-call part (`toolCallId` may be `undefined`,
`toolName` defaults to `"unknown"`, `input` defaults to `{}`). -/
def convertToolBlockToToolCallPart (toolBlock : ToolMessageBlock) : RequestPart :=
  RequestPart.toolCall toolBlock.toolId (some (jsOr toolBlock.toolName "unknown"))
    (some (JsonVal.obj (toolBlock.arguments.getD [])))

/-- `convertToolBlockToToolResultPart` of
`src/aiCore/prepareParams/messageConverter.ts`: absent content becomes
`{type:'text', value:''}`, a string becomes `{type:'text', value}`, any other
value becomes `{type:'json', value}` (the structured value, not its
serialization). -/
def convertToolBlockToToolResultPart (toolBlock : ToolMessageBlock) : RequestPart :=
  let output : ToolOutput :=
    match toolBlock.content with
    | none => ToolOutput.text ""
    | some JsonVal.null => ToolOutput.text ""
    | some (JsonVal.str s) => ToolOutput.text s
    | some c => ToolOutput.json c
  RequestPart.toolResult toolBlock.toolId (some (jsOr toolBlock.toolName "unknown")) output

/-- `hasToolResult`: `content !== undefined && content !== null`. -/
def hasToolResult (toolBlock : ToolMessageBlock) : Bool :=
  contentPresent toolBlock.content

/-- `convertMessageToAssistantAndToolMessages`: text, reasoning and file parts,
then — for every tool block — a tool-call part followed by a tool-result part
when a result is present ("independent emission"). -/
def convertMessageToAssistantAndToolMessages
    (toFilePart : FileMessageBlock → Model → Option FilePartData)
    (toTextPart : FileMessageBlock → Option String)
    (content : String) (fileBlocks : List FileMessageBlock)
    (toolBlocks : List ToolMessageBlock) (thinkingBlocks : List ThinkingMessageBlock)
    (model : Option Model) : ModelMessage :=
  ⟨Role.assistant, MsgContent.parts
    ((if content.isEmpty then [] else [RequestPart.text content])
      ++ thinkingBlocks.map (fun tb => RequestPart.reasoning tb.content)
      ++ fileBlocks.flatMap (assistantFileParts toFilePart toTextPart model)
      ++ (if toolBlocks.isEmpty then []
          else toolBlocks.flatMap (fun tb =>
            [convertToolBlockToToolCallPart tb]
            ++ (if hasToolResult tb then [convertToolBlockToToolResultPart tb] else []))))⟩

/-- `convertMessageToSdkParam`: dispatch on the source role (this variant has
no `tool`-role path: every non-user, non-system role takes the assistant
path). -/
def convertMessageToSdkParam
    (readImage : String → Option (String × String))
    (toFilePart : FileMessageBlock → Model → Option FilePartData)
    (toTextPart : FileMessageBlock → Option String)
    (message : Message) (isVisionModel : Bool) (model : Option Model) :
    Except ConvErr (List ModelMessage) :=
  if message.role = Role.user ∨ message.role = Role.system then
    convertMessageToUserModelMessage readImage toFilePart toTextPart
      message.content message.fileBlocks message.imageBlocks isVisionModel model
  else
    pure [convertMessageToAssistantAndToolMessages toFilePart toTextPart
      message.content message.fileBlocks message.toolBlocks message.thinkingBlocks model]

/-- The message loop of `convertMessagesToSdkMessages`: convert each message
and flatten the results in order. -/
def compileAll
    (readImage : String → Option (String × String))
    (toFilePart : FileMessageBlock → Model → Option FilePartData)
    (toTextPart : FileMessageBlock → Option String)
    (isVisionModel : Bool) (model : Option Model) :
    List Message → Except ConvErr (List ModelMessage)
  | [] => Except.ok []
  | message :: rest =>
    match convertMessageToSdkParam readImage toFilePart toTextPart message isVisionModel model with
    | Except.error e => Except.error e
    | Except.ok sdkMessage =>
      match compileAll readImage toFilePart toTextPart isVisionModel model rest with
      | Except.error e => Except.error e
      | Except.ok tail => Except.ok (sdkMessage ++ tail)

/-- JavaScript's `arr.slice(-2)`. -/
def jsSliceLast2 (l : List α) : List α := l.drop (l.length - 2)

/-- The image-enhancement post-pass's user-content update: a plain-string user
content is wrapped into a text part first, then the assistant's image parts
are appended. -/
def mergeUserContent (c : MsgContent) (imageParts : List RequestPart) : MsgContent :=
  match c with
  | MsgContent.str s => MsgContent.parts ([RequestPart.text s] ++ imageParts)
  | MsgContent.parts ps => MsgContent.parts (ps ++ imageParts)

/-- `convertMessagesToSdkMessages` of
`src/aiCore/prepareParams/messageConverter.ts`: convert all messages, then —
for an image-enhancement model with at least 3 input messages — keep only the
compiled pair for the last two source messages, append the source assistant
message's image parts to the compiled user message, and prepend the first
compiled system message when one exists.  The `[0]` accesses on the filtered
lists are `undefined` when no assistant/user message is found; the source
would then crash dereferencing them (`findImageBlocks(undefined)` /
`undefined.content`), modelled as `ConvErr.undefinedAccess`. -/
def convertMessagesToSdkMessages
    (readImage : String → Option (String × String))
    (toFilePart : FileMessageBlock → Model → Option FilePartData)
    (toTextPart : FileMessageBlock → Option String)
    (messages : List Message) (model : Model) : Except ConvErr (List ModelMessage) :=
  match compileAll readImage toFilePart toTextPart model.isVision (some model) messages with
  | Except.error e => Except.error e
  | Except.ok sdkMessages =>
    if model.isImageEnhancement ∧ 3 ≤ messages.length then
      match ((jsSliceLast2 messages).filter (fun m => m.role == Role.assistant)).head?,
          ((jsSliceLast2 sdkMessages).filter (fun m => m.role == Role.assistant)).head?,
          ((jsSliceLast2 sdkMessages).filter (fun m => m.role == Role.user)).head? with
      | some assistantMessage, some assistantSdkMessage, some userSdkMessage =>
        match convertImageBlockToImagePart readImage assistantMessage.imageBlocks with
        | Except.error e => Except.error e
        | Except.ok imageParts =>
          match (sdkMessages.filter (fun m => m.role == Role.system)).head? with
          | some firstSystem =>
            Except.ok [firstSystem, assistantSdkMessage,
              ⟨userSdkMessage.role, mergeUserContent userSdkMessage.content imageParts⟩]
          | none =>
            Except.ok [assistantSdkMessage,
              ⟨userSdkMessage.role, mergeUserContent userSdkMessage.content imageParts⟩]
      | _, _, _ => Except.error ConvErr.undefinedAccess
    else
      Except.ok sdkMessages

end MC

/-- `typeof content === 'string' ? content : JSON.stringify(content)` — the
result-payload serialization shared by the one-part pairing variant's
tool-result builders (only reached with present content; the `none` arm is
unreachable there). -/
def jsToolOutputString : Option JsonVal → String
  | some (JsonVal.str s) => s
  | some c => JsonVal.stringify c
  | none => ""

namespace V1

/-- The `toolCallIdCache` plus a source of fresh ids.  `counter` indexes the
generator `gen` that models `generateToolCallId`'s
`tool_<Date.now()>_<random>` draws; `clearToolCallIdCache` corresponds to
starting over from an empty cache. -/
structure IdGenState where
  cache : List (String × String)
  counter : Nat

/-- `Map.prototype.get` on the id cache. -/
def cacheLookup : List (String × String) → String → Option String
  | [], _ => none
  | (k, v) :: rest, key => if k = key then some v else cacheLookup rest key

/-- `getToolCallId`: prefer the block's own (truthy) `toolId`; otherwise the
cached id for this block's durable identity; otherwise generate a fresh id and
cache it under `toolBlock.id`. -/
def getToolCallId (gen : Nat → String) (toolBlock : ToolMessageBlock) (st : IdGenState) :
    String × IdGenState :=
  if strTruthy toolBlock.toolId then (toolBlock.toolId.getD "", st)
  else
    match cacheLookup st.cache toolBlock.id with
    | some cached => (cached, st)
    | none =>
      let newId := gen st.counter
      (newId, ⟨st.cache ++ [(toolBlock.id, newId)], st.counter + 1⟩)

/-- `convertToolBlockToToolPart` (the "one block → at most one part" pairing):
a present result wins and yields a tool-result with a bare-string output; a
missing result with non-empty arguments yields a tool-call; otherwise no part.
The call id is derived (and possibly cached) before the branch, exactly as in
the source. -/
def convertToolBlockToToolPart (gen : Nat → String) (toolBlock : ToolMessageBlock)
    (st : IdGenState) : Option RequestPart × IdGenState :=
  let idAndSt := getToolCallId gen toolBlock st
  let toolName := jsOr toolBlock.toolName "unknown_tool"
  if contentPresent toolBlock.content then
    (some (RequestPart.toolResult (some idAndSt.1) (some toolName)
      (ToolOutput.raw (jsToolOutputString toolBlock.content))), idAndSt.2)
  else if argsNonempty toolBlock then
    (some (RequestPart.toolCall (some idAndSt.1) (some toolName)
      (some (JsonVal.obj (toolBlock.arguments.getD [])))), idAndSt.2)
  else (none, idAndSt.2)

/-- `convertToolBlockToToolResultPart` of the one-part variant (used on the
`tool`-role path): `null`/absent content yields no part (and, unlike
`convertToolBlockToToolPart`, derives no id); otherwise a tool-result with the
bare-string serialization of the content. -/
def convertToolBlockToToolResultPart (gen : Nat → String) (toolBlock : ToolMessageBlock)
    (st : IdGenState) : Option RequestPart × IdGenState :=
  if !contentPresent toolBlock.content then (none, st)
  else
    let idAndSt := getToolCallId gen toolBlock st
    let toolName := jsOr toolBlock.toolName "unknown_tool"
    (some (RequestPart.toolResult (some idAndSt.1) (some toolName)
      (ToolOutput.raw (jsToolOutputString toolBlock.content))), idAndSt.2)

/-- The block loop of `convertMessageToToolModelMessage`: blocks without
content are skipped with a warning; the rest contribute their tool-result
parts in order. -/
def toolModelMessageLoop (gen : Nat → String) :
    List ToolMessageBlock → List RequestPart → IdGenState → List RequestPart × IdGenState
  | [], acc, st => (acc, st)
  | toolBlock :: rest, acc, st =>
    if !contentPresent toolBlock.content then
      toolModelMessageLoop gen rest acc st
    else
      match convertToolBlockToToolResultPart gen toolBlock st with
      | (some p, st') => toolModelMessageLoop gen rest (acc ++ [p]) st'
      | (none, st') => toolModelMessageLoop gen rest acc st'

/-- `convertMessageToToolModelMessage`: a `tool`-role source message compiles
to one `tool`-role request message holding only tool-result parts. -/
def convertMessageToToolModelMessage (gen : Nat → String) (toolBlocks : List ToolMessageBlock)
    (st : IdGenState) : ModelMessage × IdGenState :=
  let contentAndSt := toolModelMessageLoop gen toolBlocks [] st
  (⟨Role.tool, MsgContent.parts contentAndSt.1⟩, contentAndSt.2)

/-- The tool-block loop of the one-part variant's assistant path: collect the
at-most-one part of each block in order. -/
def toolPartsLoop (gen : Nat → String) :
    List ToolMessageBlock → List RequestPart → IdGenState → List RequestPart × IdGenState
  | [], acc, st => (acc, st)
  | toolBlock :: rest, acc, st =>
    match convertToolBlockToToolPart gen toolBlock st with
    | (some p, st') => toolPartsLoop gen rest (acc ++ [p]) st'
    | (none, st') => toolPartsLoop gen rest acc st'

/-- `convertMessageToAssistantModelMessage` of the one-part variant: text,
reasoning, tool parts (one-part pairing), then file parts. -/
def convertMessageToAssistantModelMessage (gen : Nat → String)
    (toFilePart : FileMessageBlock → Model → Option FilePartData)
    (toTextPart : FileMessageBlock → Option String)
    (content : String) (fileBlocks : List FileMessageBlock)
    (thinkingBlocks : List ThinkingMessageBlock) (toolBlocks : List ToolMessageBlock)
    (model : Option Model) (st : IdGenState) : ModelMessage × IdGenState :=
  let textAndReasoning : List RequestPart :=
    (if content.isEmpty then [] else [RequestPart.text content])
    ++ thinkingBlocks.map (fun tb => RequestPart.reasoning tb.content)
  let toolPartsAndSt := toolPartsLoop gen toolBlocks [] st
  let parts := textAndReasoning ++ toolPartsAndSt.1
    ++ fileBlocks.flatMap (assistantFileParts toFilePart toTextPart model)
  (⟨Role.assistant, MsgContent.parts parts⟩, toolPartsAndSt.2)

end V1

namespace V2

/-- Lifecycle status of a tool invocation record. -/
inductive ToolStatus where
  | pending
  | done
  | error
  | cancelled
deriving DecidableEq, Repr

/-- The `tool` descriptor of an invocation record (`type` distinguishes
provider-executed tools, `name` the tool's name; both may be absent). -/
structure ToolInfo where
  type : Option String
  name : Option String
deriving DecidableEq, Repr

/-- One `rawMcpToolResponse` invocation record. -/
structure McpToolResponse where
  id : String
  toolCallId : Option String
  tool : Option ToolInfo
  toolName : Option String
  arguments : Option JsonVal
  status : ToolStatus
  response : Option JsonVal

/-- A tool block as seen by the history-replay variant: only
`metadata?.rawMcpToolResponse` is consulted. -/
structure ReplayToolBlock where
  rawMcpToolResponse : Option McpToolResponse

/-- `tr?.tool?.type === 'provider'`. -/
def isProviderExecuted (tr : McpToolResponse) : Bool :=
  match tr.tool with
  | some info => info.type == some "provider"
  | none => false

/-- The invocation records that are replayed:
`blocks.map(b => b?.metadata?.rawMcpToolResponse).filter(Boolean)` restricted
to client-executed tools (`tr?.tool?.type !== 'provider'`). -/
def replayableResponses (blocks : List ReplayToolBlock) : List McpToolResponse :=
  (blocks.filterMap (fun b => b.rawMcpToolResponse)).filter
    (fun tr => !isProviderExecuted tr)

/-- `stringifyToolOutput`: a string passes through; any other value is
JSON-stringified (`JSON.stringify(undefined)` is `undefined`, modelled as
`none`; serialization of a `JsonVal` tree never throws, so the `String(value)`
catch arm is unreachable). -/
def stringifyToolOutput : Option JsonVal → Option String
  | none => none
  | some (JsonVal.str s) => some s
  | some v => some (JsonVal.stringify v)

/-- `parseToolCallInput`: a string argument payload is JSON-parsed
(`safeParseJSON`, an external collaborator passed as `parseJSON`), keeping the
original string on parse failure; a non-string payload passes through. -/
def parseToolCallInput (parseJSON : String → Option JsonVal) :
    Option JsonVal → Option JsonVal
  | none => none
  | some (JsonVal.str s) =>
    match parseJSON s with
    | some parsed => some parsed
    | none => some (JsonVal.str s)
  | some v => some v

/-- `tr.tool?.name ?? tr.toolName`. -/
def replayToolName (tr : McpToolResponse) : Option String :=
  match tr.tool with
  | some info =>
    match info.name with
    | some n => some n
    | none => tr.toolName
  | none => tr.toolName

/-- The tool-call part built for one replayable invocation record. -/
def mkToolCallPart (parseJSON : String → Option JsonVal) (tr : McpToolResponse) : RequestPart :=
  RequestPart.toolCall (some (tr.toolCallId.getD tr.id)) (replayToolName tr)
    (parseToolCallInput parseJSON tr.arguments)

/-- `status === 'done' || status === 'error' || status === 'cancelled'`. -/
def isTerminal (s : ToolStatus) : Bool :=
  s == ToolStatus.done || s == ToolStatus.error || s == ToolStatus.cancelled

/-- `tr.response === undefined || tr.response === null`. -/
def responseNullish : Option JsonVal → Bool
  | none => true
  | some JsonVal.null => true
  | some _ => false

/-- The tool-result part built for one terminal replayable invocation record:
`error`/`cancelled` tag the output as the error-text variant; a cancelled
record without a response serializes as the literal text `cancelled`. -/
def mkToolResultPart (tr : McpToolResponse) : RequestPart :=
  RequestPart.toolResult (some (tr.toolCallId.getD tr.id)) (replayToolName tr)
    (ToolOutput.replay
      (tr.status == ToolStatus.error || tr.status == ToolStatus.cancelled)
      (if tr.status == ToolStatus.cancelled && responseNullish tr.response then some "cancelled"
       else stringifyToolOutput tr.response))

/-- `buildToolHistoryMessages`: group the replayable invocation records of one
message into at most one synthetic assistant message holding every tool-call
part, followed by at most one synthetic `tool`-role message holding the
tool-result parts of the terminal (`done`/`error`/`cancelled`) records. -/
def buildToolHistoryMessages (parseJSON : String → Option JsonVal)
    (blocks : List ReplayToolBlock) : List ModelMessage :=
  let replayable := replayableResponses blocks
  if replayable.isEmpty then []
  else
    let toolCallParts := replayable.map (mkToolCallPart parseJSON)
    let toolResultParts := (replayable.filter (fun tr => isTerminal tr.status)).map mkToolResultPart
    (if toolCallParts.isEmpty then [] else [⟨Role.assistant, MsgContent.parts toolCallParts⟩])
    ++ (if toolResultParts.isEmpty then [] else [⟨Role.tool, MsgContent.parts toolResultParts⟩])

end V2

/-- The shape required of a tool-history replay output: at most one
assistant message of tool-call parts, immediately followed by at most one
`tool`-role message of tool-result parts. -/
def toolHistoryShape (msgs : List ModelMessage) : Bool :=
  match msgs with
  | [] => true
  | [m] =>
    (m.role == Role.assistant && (partsOf m).all (fun p => RequestPart.isToolCallPart p))
    || (m.role == Role.tool && (partsOf m).all (fun p => RequestPart.isToolResultPart p))
  | [m1, m2] =>
    m1.role == Role.assistant && (partsOf m1).all (fun p => RequestPart.isToolCallPart p)
    && m2.role == Role.tool && (partsOf m2).all (fun p => RequestPart.isToolResultPart p)
  | _ => false

/-- All tool-result parts of a compiled message list, in emission order. -/
def resultPartsOf (msgs : List ModelMessage) : List RequestPart :=
  (msgs.flatMap partsOf).filter (fun p => RequestPart.isToolResultPart p)

/-- The error-text flag of a replay-style tool-result part. -/
def replayIsErrorText : RequestPart → Option Bool
  | RequestPart.toolResult _ _ (ToolOutput.replay e _) => some e
  | _ => none

/-- The parts one file block appends in the user-path loop when it does not
trigger the handle early-return (`Sum.inr` payload of `userFileBlockStep`;
empty for the unreachable handle case). -/
def userFileBlockNonHandleParts
    (toFilePart : FileMessageBlock → Model → Option FilePartData)
    (toTextPart : FileMessageBlock → Option String)
    (model : Option Model) (fileBlock : FileMessageBlock) : List RequestPart :=
  match userFileBlockStep toFilePart toTextPart model fileBlock with
  | Sum.inl _ => []
  | Sum.inr newParts => newParts

/-- The parts accumulated by `convertMessageToUserModelMessage` up to (not
including) a given file block: the text part for non-empty main text, then the
image parts, then the parts contributed by the earlier file blocks in order. -/
def userAccumulatedParts
    (toFilePart : FileMessageBlock → Model → Option FilePartData)
    (toTextPart : FileMessageBlock → Option String) (m : Model)
    (content : String) (imageParts : List RequestPart)
    (earlierFileBlocks : List FileMessageBlock) : List RequestPart :=
  (if content.isEmpty then [] else [RequestPart.text content]) ++ imageParts
    ++ earlierFileBlocks.flatMap (userFileBlockNonHandleParts toFilePart toTextPart (some m))

/-- Looking up a key just appended to a cache that did not contain it. -/
theorem cacheLookup_append_self (l : List (String × String)) (key v : String)
    (h : V1.cacheLookup l key = none) :
    V1.cacheLookup (l ++ [(key, v)]) key = some v := by
  induction l with
  | nil => simp [V1.cacheLookup]
  | cons kv rest ih =>
    obtain ⟨k1, v1⟩ := kv
    by_cases hk : k1 = key
    · simp [V1.cacheLookup, hk] at h
    · simp only [List.cons_append, V1.cacheLookup, hk, if_false] at h ⊢
      exact ih h

/-- C1.  The claim states that a tool block with neither a result payload nor
non-empty arguments contributes zero request parts.  The one-part pairing
variant (`V1.convertToolBlockToToolPart`) satisfies this (second conjunct),
but `src/aiCore/prepareParams/messageConverter.ts` pushes a tool-call part
with empty input for every tool block unconditionally, so its compiled
assistant message for such a block contains one tool-call part — contradicting
the claim and the module's own unit test ("should skip tool blocks without
content and arguments"). -/
theorem claim_c1_empty_tool_block_one_part_vs_independent :
    MC.convertMessageToAssistantAndToolMessages (fun _ _ => none) (fun _ => none) ""
      [] [⟨"tool-1", none, none, none, none⟩] [] none
      = ⟨Role.assistant, MsgContent.parts
          [RequestPart.toolCall none (some "unknown") (some (JsonVal.obj []))]⟩
    ∧ (V1.convertToolBlockToToolPart (fun _ => "tool_generated_0")
        ⟨"tool-1", none, none, none, none⟩ ⟨[], 0⟩).1 = none :=
  ⟨rfl, rfl⟩

/-- C2.  In the one-part pairing mode, a tool block with a present (non-null)
result payload and non-empty arguments yields exactly one tool-result part and
no tool-call part. -/
theorem claim_c2_result_wins_over_call (gen : Nat → String) (b : ToolMessageBlock)
    (st : V1.IdGenState)
    (hContent : contentPresent b.content = true) (hArgs : argsNonempty b = true) :
    (optParts (V1.convertToolBlockToToolPart gen b st).1).countP
        (fun p => RequestPart.isToolResultPart p) = 1
    ∧ (optParts (V1.convertToolBlockToToolPart gen b st).1).countP
        (fun p => RequestPart.isToolCallPart p) = 0 := by
  unfold V1.convertToolBlockToToolPart
  simp [hContent, optParts, RequestPart.isToolResultPart, RequestPart.isToolCallPart]

/-- Witness for C2 at a concrete block with both content and arguments. -/
theorem claim_c2_result_wins_over_call_witness :
    contentPresent (ToolMessageBlock.content
        ⟨"t1", some "call_1", some "search", some [("q", JsonVal.str "x")],
          some (JsonVal.str "result")⟩) = true
    ∧ argsNonempty ⟨"t1", some "call_1", some "search", some [("q", JsonVal.str "x")],
        some (JsonVal.str "result")⟩ = true
    ∧ ((optParts (V1.convertToolBlockToToolPart (fun _ => "generated_id")
          ⟨"t1", some "call_1", some "search", some [("q", JsonVal.str "x")],
            some (JsonVal.str "result")⟩ ⟨[], 0⟩).1).countP
            (fun p => RequestPart.isToolResultPart p) = 1
      ∧ (optParts (V1.convertToolBlockToToolPart (fun _ => "generated_id")
          ⟨"t1", some "call_1", some "search", some [("q", JsonVal.str "x")],
            some (JsonVal.str "result")⟩ ⟨[], 0⟩).1).countP
            (fun p => RequestPart.isToolCallPart p) = 0) :=
  ⟨rfl, rfl, claim_c2_result_wins_over_call _ _ _ rfl rfl⟩

/-- C3.  The claim states that a non-string result payload is emitted as its
canonical JSON serialization, a string.  The one-part variant does so (second
conjunct: the output for `{"data":"value","number":42}` is exactly that
string).  `src/aiCore/prepareParams/messageConverter.ts`'s
`convertToolBlockToToolResultPart`, however, emits the structured value tagged
`json` — not a string — contradicting the claim and the module's own unit
test ("should convert object content to JSON string in tool-result"). -/
theorem claim_c3_json_serialization_variants :
    MC.convertToolBlockToToolResultPart
      ⟨"tool-1", some "call_123", some "test_tool", none,
        some (JsonVal.obj [("data", JsonVal.str "value"), ("number", JsonVal.num 42)])⟩
      = RequestPart.toolResult (some "call_123") (some "test_tool")
          (ToolOutput.json (JsonVal.obj [("data", JsonVal.str "value"), ("number", JsonVal.num 42)]))
    ∧ (V1.convertToolBlockToToolPart (fun _ => "tool_generated_0")
        ⟨"tool-1", some "call_123", some "test_tool", none,
          some (JsonVal.obj [("data", JsonVal.str "value"), ("number", JsonVal.num 42)])⟩
        ⟨[], 0⟩).1
      = some (RequestPart.toolResult (some "call_123") (some "test_tool")
          (ToolOutput.raw "\x7b\"data\":\"value\",\"number\":42\x7d")) :=
  ⟨rfl, rfl⟩

/-- C7.  The image materializer: a failed local read is dropped (second
conjunct), a well-formed base64 data-URL has its payload extracted with the
mime segment as media type (third), an empty mime segment defaults to
`image/png` (fourth), any other URL passes through unchanged (fifth) — but a
URL beginning with `data:` that the base64 regex does not match makes the
source throw a `TypeError` through the non-null assertion `match(...)![1]`,
aborting the whole compilation (first conjunct), contrary to the claim that
the materializer never raises. -/
theorem claim_c7_data_url_type_error :
    convertImageBlockToImagePart (fun _ => none) [⟨none, some "data:text/plain,hello"⟩]
      = Except.error (ConvErr.nullMatchAccess "data:text/plain,hello")
    ∧ convertImageBlockToImagePart (fun _ => none) [⟨some ⟨"/tmp/a.png"⟩, none⟩]
      = Except.ok []
    ∧ convertImageBlockToImagePart (fun _ => none) [⟨none, some "data:image/jpeg;base64,AAAA"⟩]
      = Except.ok [RequestPart.image "AAAA" (some "image/jpeg")]
    ∧ convertImageBlockToImagePart (fun _ => none) [⟨none, some "data:;base64,AAAA"⟩]
      = Except.ok [RequestPart.image "AAAA" (some "image/png")]
    ∧ convertImageBlockToImagePart (fun _ => none) [⟨none, some "https://example.com/a.png"⟩]
      = Except.ok [RequestPart.image "https://example.com/a.png" none] :=
  ⟨rfl, rfl, rfl, rfl, rfl⟩

/-- C9.  Derived tool-call/result identifiers: a truthy `toolId` passes
through exactly; for a block without one, a second derivation for the same
block identity (threading the cache) returns the cached id unchanged; two
separate compilations — each starting from the cleared cache but with
different generator draws — may return different synthesized ids. -/
theorem claim_c9_tool_id_stability (gen gen2 : Nat → String) (b bNo : ToolMessageBlock)
    (st : V1.IdGenState) (t : String)
    (hSet : b.toolId = some t) (hNonempty : t.isEmpty = false)
    (hAbsent : strTruthy bNo.toolId = false) :
    (V1.getToolCallId gen b st).1 = t
    ∧ (V1.getToolCallId gen bNo (V1.getToolCallId gen bNo st).2).1
      = (V1.getToolCallId gen bNo st).1
    ∧ (gen 0 ≠ gen2 0 →
        (V1.getToolCallId gen bNo ⟨[], 0⟩).1 ≠ (V1.getToolCallId gen2 bNo ⟨[], 0⟩).1) := by
  refine ⟨?_, ?_, ?_⟩
  · simp [V1.getToolCallId, strTruthy, hSet, hNonempty]
  · unfold V1.getToolCallId
    simp only [hAbsent, Bool.false_eq_true, if_false]
    cases hLook : V1.cacheLookup st.cache bNo.id with
    | some cached => simp [hLook]
    | none => simp [hLook, cacheLookup_append_self st.cache bNo.id _ hLook]
  · intro hGen
    simpa [V1.getToolCallId, hAbsent, V1.cacheLookup] using hGen

/-- Witness for C9: a block with `toolId = "call_123"`, a block without one,
and two generators with different draws. -/
theorem claim_c9_tool_id_stability_witness :
    ((⟨"t1", some "call_123", none, none, none⟩ : ToolMessageBlock).toolId = some "call_123")
    ∧ ("call_123".isEmpty = false)
    ∧ (strTruthy (ToolMessageBlock.toolId ⟨"t2", none, none, none, none⟩) = false)
    ∧ ((V1.getToolCallId (fun _ => "tool_100_aaa") ⟨"t1", some "call_123", none, none, none⟩
          ⟨[], 0⟩).1 = "call_123"
      ∧ (V1.getToolCallId (fun _ => "tool_100_aaa") ⟨"t2", none, none, none, none⟩
          (V1.getToolCallId (fun _ => "tool_100_aaa") ⟨"t2", none, none, none, none⟩ ⟨[], 0⟩).2).1
        = (V1.getToolCallId (fun _ => "tool_100_aaa") ⟨"t2", none, none, none, none⟩ ⟨[], 0⟩).1
      ∧ ((fun _ => "tool_100_aaa") 0 ≠ (fun (_ : Nat) => "tool_200_bbb") 0 →
          (V1.getToolCallId (fun _ => "tool_100_aaa") ⟨"t2", none, none, none, none⟩ ⟨[], 0⟩).1
          ≠ (V1.getToolCallId (fun _ => "tool_200_bbb") ⟨"t2", none, none, none, none⟩ ⟨[], 0⟩).1)) :=
  ⟨rfl, rfl, rfl,
    claim_c9_tool_id_stability (fun _ => "tool_100_aaa") (fun _ => "tool_200_bbb")
      ⟨"t1", some "call_123", none, none, none⟩ ⟨"t2", none, none, none, none⟩
      ⟨[], 0⟩ "call_123" rfl rfl rfl⟩

/-- C10.  A tool block whose content is the empty string is treated as having
a result: `hasToolResult` tests presence, not non-emptiness; the one-part
pairing emits a tool-result with output `""` and no tool-call part even with
non-empty arguments; `messageConverter.ts`'s result builder likewise emits a
text output `""`. -/
theorem claim_c10_empty_string_content_is_result (gen : Nat → String) (b : ToolMessageBlock)
    (st : V1.IdGenState)
    (hContent : b.content = some (JsonVal.str ""))
    (hArgs : argsNonempty b = true) :
    MC.hasToolResult b = true
    ∧ (MC.convertToolBlockToToolResultPart b).toolOutput = some (ToolOutput.text "")
    ∧ ((V1.convertToolBlockToToolPart gen b st).1.bind RequestPart.rawOutput) = some ""
    ∧ (optParts (V1.convertToolBlockToToolPart gen b st).1).countP
        (fun p => RequestPart.isToolCallPart p) = 0 := by
  refine ⟨?_, ?_, ?_, ?_⟩
  · simp [MC.hasToolResult, hContent, contentPresent]
  · simp [MC.convertToolBlockToToolResultPart, hContent, RequestPart.toolOutput]
  · simp [V1.convertToolBlockToToolPart, hContent, contentPresent, jsToolOutputString,
      RequestPart.rawOutput]
  · simp [V1.convertToolBlockToToolPart, hContent, contentPresent, optParts,
      RequestPart.isToolCallPart]

/-- Witness for C10 at a concrete block with empty-string content and
non-empty arguments. -/
theorem claim_c10_empty_string_content_is_result_witness :
    (ToolMessageBlock.content ⟨"t1", none, none, some [("k", JsonVal.num 1)],
        some (JsonVal.str "")⟩ = some (JsonVal.str ""))
    ∧ (argsNonempty ⟨"t1", none, none, some [("k", JsonVal.num 1)], some (JsonVal.str "")⟩ = true)
    ∧ (MC.hasToolResult ⟨"t1", none, none, some [("k", JsonVal.num 1)], some (JsonVal.str "")⟩ = true
      ∧ (MC.convertToolBlockToToolResultPart
          ⟨"t1", none, none, some [("k", JsonVal.num 1)], some (JsonVal.str "")⟩).toolOutput
        = some (ToolOutput.text "")
      ∧ ((V1.convertToolBlockToToolPart (fun _ => "generated_id")
          ⟨"t1", none, none, some [("k", JsonVal.num 1)], some (JsonVal.str "")⟩
          ⟨[], 0⟩).1.bind RequestPart.rawOutput) = some ""
      ∧ (optParts (V1.convertToolBlockToToolPart (fun _ => "generated_id")
          ⟨"t1", none, none, some [("k", JsonVal.num 1)], some (JsonVal.str "")⟩
          ⟨[], 0⟩).1).countP (fun p => RequestPart.isToolCallPart p) = 0) :=
  ⟨rfl, rfl,
    claim_c10_empty_string_content_is_result (fun _ => "generated_id")
      ⟨"t1", none, none, some [("k", JsonVal.num 1)], some (JsonVal.str "")⟩
      ⟨[], 0⟩ rfl rfl⟩

/-- With present content, the one-part variant's tool-role result builder
always yields a tool-result part. -/
theorem convertToolBlockToToolResultPart_of_present (gen : Nat → String)
    (b : ToolMessageBlock) (st : V1.IdGenState) (hc : contentPresent b.content = true) :
    V1.convertToolBlockToToolResultPart gen b st
      = (some (RequestPart.toolResult (some (V1.getToolCallId gen b st).1)
          (some (jsOr b.toolName "unknown_tool"))
          (ToolOutput.raw (jsToolOutputString b.content))), (V1.getToolCallId gen b st).2) := by
  simp [V1.convertToolBlockToToolResultPart, hc]

/-- The length of the part list accumulated by the tool-role message loop:
one part per block with present content. -/
theorem toolModelMessageLoop_length (gen : Nat → String) (blocks : List ToolMessageBlock) :
    ∀ (acc : List RequestPart) (st : V1.IdGenState),
    (V1.toolModelMessageLoop gen blocks acc st).1.length
      = acc.length + (blocks.filter (fun b => contentPresent b.content)).length := by
  induction blocks with
  | nil => intro acc st; simp [V1.toolModelMessageLoop]
  | cons b rest ih =>
    intro acc st
    by_cases hc : contentPresent b.content
    · rw [V1.toolModelMessageLoop, if_neg (by simp [hc]),
        convertToolBlockToToolResultPart_of_present gen b st hc]
      simp [ih, hc]
      omega
    · rw [V1.toolModelMessageLoop, if_pos (by simp [hc])]
      simp [ih, hc]

/-- Every part accumulated by the tool-role message loop beyond the initial
accumulator is a tool-result part. -/
theorem toolModelMessageLoop_all_results (gen : Nat → String) (blocks : List ToolMessageBlock) :
    ∀ (acc : List RequestPart) (st : V1.IdGenState),
    acc.all (fun p => RequestPart.isToolResultPart p) = true →
    (V1.toolModelMessageLoop gen blocks acc st).1.all (fun p => RequestPart.isToolResultPart p) = true := by
  induction blocks with
  | nil => intro acc st hAcc; simpa [V1.toolModelMessageLoop] using hAcc
  | cons b rest ih =>
    intro acc st hAcc
    by_cases hc : contentPresent b.content
    · rw [V1.toolModelMessageLoop, if_neg (by simp [hc]),
        convertToolBlockToToolResultPart_of_present gen b st hc]
      exact ih _ _ (by rw [List.all_append, hAcc]; rfl)
    · rw [V1.toolModelMessageLoop, if_pos (by simp [hc])]
      exact ih _ _ hAcc

/-- C8.  A `tool`-role source message compiles to exactly one request message
of role `tool` whose parts are all tool-result parts, with one part per block
with a present (non-null) result payload — blocks without one are skipped —
and when no block has a resolvable result, the message is well-formed with an
empty part list. -/
theorem claim_c8_tool_role_message (gen : Nat → String) (blocks : List ToolMessageBlock)
    (st : V1.IdGenState) :
    (V1.convertMessageToToolModelMessage gen blocks st).1.role = Role.tool
    ∧ (partsOf (V1.convertMessageToToolModelMessage gen blocks st).1).all
        (fun p => RequestPart.isToolResultPart p) = true
    ∧ (partsOf (V1.convertMessageToToolModelMessage gen blocks st).1).length
      = (blocks.filter (fun b => contentPresent b.content)).length
    ∧ ((blocks.filter (fun b => contentPresent b.content)) = [] →
        partsOf (V1.convertMessageToToolModelMessage gen blocks st).1 = []) := by
  refine ⟨rfl, ?_, ?_, ?_⟩
  · exact toolModelMessageLoop_all_results gen blocks [] st rfl
  · simpa using toolModelMessageLoop_length gen blocks [] st
  · intro hNone
    have hLen := toolModelMessageLoop_length gen blocks [] st
    rw [hNone] at hLen
    simpa using List.length_eq_zero.mp (by simpa using hLen)

/-- Witness for C8: two blocks with results, one `null`-content block and one
absent-content block yield a `tool` message with exactly two result parts. -/
theorem claim_c8_tool_role_message_witness :
    (V1.convertMessageToToolModelMessage (fun _ => "generated_id")
        [⟨"t1", some "c1", some "tool_a", none, some (JsonVal.str "ok")⟩,
         ⟨"t2", none, none, none, none⟩,
         ⟨"t3", none, none, none, some JsonVal.null⟩,
         ⟨"t4", some "c4", none, none, some (JsonVal.num 7)⟩] ⟨[], 0⟩).1.role = Role.tool
    ∧ (partsOf (V1.convertMessageToToolModelMessage (fun _ => "generated_id")
        [⟨"t1", some "c1", some "tool_a", none, some (JsonVal.str "ok")⟩,
         ⟨"t2", none, none, none, none⟩,
         ⟨"t3", none, none, none, some JsonVal.null⟩,
         ⟨"t4", some "c4", none, none, some (JsonVal.num 7)⟩] ⟨[], 0⟩).1).all
        (fun p => RequestPart.isToolResultPart p) = true
    ∧ (partsOf (V1.convertMessageToToolModelMessage (fun _ => "generated_id")
        [⟨"t1", some "c1", some "tool_a", none, some (JsonVal.str "ok")⟩,
         ⟨"t2", none, none, none, none⟩,
         ⟨"t3", none, none, none, some JsonVal.null⟩,
         ⟨"t4", some "c4", none, none, some (JsonVal.num 7)⟩] ⟨[], 0⟩).1).length
      = ([⟨"t1", some "c1", some "tool_a", none, some (JsonVal.str "ok")⟩,
         ⟨"t2", none, none, none, none⟩,
         ⟨"t3", none, none, none, some JsonVal.null⟩,
         (⟨"t4", some "c4", none, none, some (JsonVal.num 7)⟩ : ToolMessageBlock)].filter
          (fun b => contentPresent b.content)).length
    ∧ (([⟨"t1", some "c1", some "tool_a", none, some (JsonVal.str "ok")⟩,
         ⟨"t2", none, none, none, none⟩,
         ⟨"t3", none, none, none, some JsonVal.null⟩,
         (⟨"t4", some "c4", none, none, some (JsonVal.num 7)⟩ : ToolMessageBlock)].filter
          (fun b => contentPresent b.content)) = [] →
        partsOf (V1.convertMessageToToolModelMessage (fun _ => "generated_id")
        [⟨"t1", some "c1", some "tool_a", none, some (JsonVal.str "ok")⟩,
         ⟨"t2", none, none, none, none⟩,
         ⟨"t3", none, none, none, some JsonVal.null⟩,
         ⟨"t4", some "c4", none, none, some (JsonVal.num 7)⟩] ⟨[], 0⟩).1 = []) :=
  claim_c8_tool_role_message (fun _ => "generated_id")
    [⟨"t1", some "c1", some "tool_a", none, some (JsonVal.str "ok")⟩,
     ⟨"t2", none, none, none, none⟩,
     ⟨"t3", none, none, none, some JsonVal.null⟩,
     ⟨"t4", some "c4", none, none, some (JsonVal.num 7)⟩] ⟨[], 0⟩


/-- The replay tool-call builder always yields a tool-call part. -/
theorem mkToolCallPart_isCall (pj : String → Option JsonVal) (tr : V2.McpToolResponse) :
    RequestPart.isToolCallPart (V2.mkToolCallPart pj tr) = true := rfl

/-- The replay tool-result builder always yields a tool-result part. -/
theorem mkToolResultPart_isResult (tr : V2.McpToolResponse) :
    RequestPart.isToolResultPart (V2.mkToolResultPart tr) = true := rfl

/-- A mapped list where every image satisfies the predicate passes `all`. -/
theorem all_map_of_forall {α β : Type} (f : α → β) (p : β → Bool)
    (h : ∀ x, p (f x) = true) (l : List α) : (l.map f).all p = true := by
  induction l with
  | nil => rfl
  | cons hd tl ih => simp only [List.map_cons, List.all_cons, h, ih, Bool.and_self]

/-- Counting a predicate every mapped element satisfies gives the length. -/
theorem countP_map_of_forall {α β : Type} (f : α → β) (p : β → Bool)
    (h : ∀ x, p (f x) = true) (l : List α) : (l.map f).countP p = l.length := by
  induction l with
  | nil => rfl
  | cons hd tl ih => simp [List.countP_cons, h, ih]

/-- Counting a predicate no mapped element satisfies gives zero. -/
theorem countP_map_of_forall_not {α β : Type} (f : α → β) (p : β → Bool)
    (h : ∀ x, p (f x) = false) (l : List α) : (l.map f).countP p = 0 := by
  induction l with
  | nil => rfl
  | cons hd tl ih => simp [List.countP_cons, h, ih]

/-- Filtering with a predicate no mapped element satisfies empties the list. -/
theorem filter_map_of_forall_not {α β : Type} (f : α → β) (p : β → Bool)
    (h : ∀ x, p (f x) = false) (l : List α) : (l.map f).filter p = [] := by
  induction l with
  | nil => rfl
  | cons hd tl ih => simp [List.filter_cons, h, ih]

/-- Filtering with a predicate every mapped element satisfies keeps the list. -/
theorem filter_map_of_forall {α β : Type} (f : α → β) (p : β → Bool)
    (h : ∀ x, p (f x) = true) (l : List α) : (l.map f).filter p = l.map f := by
  induction l with
  | nil => rfl
  | cons hd tl ih => simp [List.filter_cons, h, ih]

/-- The replay output always honours the grouped assistant-then-tool shape. -/
theorem buildToolHistoryMessages_shape (pj : String → Option JsonVal)
    (blocks : List V2.ReplayToolBlock) :
    toolHistoryShape (V2.buildToolHistoryMessages pj blocks) = true := by
  unfold V2.buildToolHistoryMessages
  cases hrs : V2.replayableResponses blocks with
  | nil => rfl
  | cons hd tl =>
    have hAllCalls : ((hd :: tl).map (V2.mkToolCallPart pj)).all
        (fun p => RequestPart.isToolCallPart p) = true :=
      all_map_of_forall _ _ (mkToolCallPart_isCall pj) (hd :: tl)
    simp only [List.isEmpty_cons, Bool.false_eq_true, if_false, List.map_cons]
    cases hter : ((hd :: tl).filter (fun tr => V2.isTerminal tr.status)).map V2.mkToolResultPart with
    | nil =>
      simp only [hter, List.isEmpty_nil, if_true, List.append_nil, List.isEmpty_cons,
        Bool.false_eq_true, if_false]
      simp only [List.map_cons] at hAllCalls
      simp only [toolHistoryShape, partsOf]
      rw [hAllCalls]
      rfl
    | cons r2 t2 =>
      have hAllResults : (((hd :: tl).filter (fun tr => V2.isTerminal tr.status)).map
          V2.mkToolResultPart).all (fun p => RequestPart.isToolResultPart p) = true :=
        all_map_of_forall _ _ mkToolResultPart_isResult _
      rw [hter] at hAllResults
      simp only [hter, List.isEmpty_cons, Bool.false_eq_true, if_false, List.singleton_append]
      simp only [List.map_cons] at hAllCalls
      simp only [toolHistoryShape, partsOf]
      rw [hAllCalls, hAllResults]
      rfl

/-- Every replayable (client-executed) invocation record yields exactly one
tool-call part in the replay output. -/
theorem buildToolHistoryMessages_call_count (pj : String → Option JsonVal)
    (blocks : List V2.ReplayToolBlock) :
    countParts (fun p => RequestPart.isToolCallPart p) (V2.buildToolHistoryMessages pj blocks)
      = (V2.replayableResponses blocks).length := by
  unfold V2.buildToolHistoryMessages
  cases hrs : V2.replayableResponses blocks with
  | nil => rfl
  | cons hd tl =>
    have hCalls : ((hd :: tl).map (V2.mkToolCallPart pj)).countP
        (fun p => RequestPart.isToolCallPart p) = (hd :: tl).length :=
      countP_map_of_forall _ _ (mkToolCallPart_isCall pj) (hd :: tl)
    simp only [List.isEmpty_cons, Bool.false_eq_true, if_false, List.map_cons]
    cases hter : ((hd :: tl).filter (fun tr => V2.isTerminal tr.status)).map V2.mkToolResultPart with
    | nil =>
      simp only [hter, List.isEmpty_nil, if_true, List.append_nil]
      simp only [List.map_cons] at hCalls
      simpa [countParts, partsOf] using hCalls
    | cons r2 t2 =>
      have hResults : (((hd :: tl).filter (fun tr => V2.isTerminal tr.status)).map
          V2.mkToolResultPart).countP (fun p => RequestPart.isToolCallPart p) = 0 :=
        countP_map_of_forall_not _ _ (fun tr => rfl) _
      rw [hter] at hResults
      simp only [hter, List.isEmpty_cons, Bool.false_eq_true, if_false, List.singleton_append]
      simp only [List.map_cons] at hCalls
      simp only [countParts, partsOf, List.flatMap_cons, List.flatMap_nil, List.append_nil,
        List.countP_append]
      omega

/-- The tool-result parts of the replay output are exactly the built results
of the terminal replayable records, in order. -/
theorem buildToolHistoryMessages_results (pj : String → Option JsonVal)
    (blocks : List V2.ReplayToolBlock) :
    resultPartsOf (V2.buildToolHistoryMessages pj blocks)
      = ((V2.replayableResponses blocks).filter (fun tr => V2.isTerminal tr.status)).map
          V2.mkToolResultPart := by
  unfold V2.buildToolHistoryMessages
  cases hrs : V2.replayableResponses blocks with
  | nil => rfl
  | cons hd tl =>
    have hCallsDrop : ((hd :: tl).map (V2.mkToolCallPart pj)).filter
        (fun p => RequestPart.isToolResultPart p) = [] :=
      filter_map_of_forall_not _ _ (fun tr => rfl) _
    have hResultsKeep : (((hd :: tl).filter (fun tr => V2.isTerminal tr.status)).map
        V2.mkToolResultPart).filter (fun p => RequestPart.isToolResultPart p)
        = ((hd :: tl).filter (fun tr => V2.isTerminal tr.status)).map V2.mkToolResultPart :=
      filter_map_of_forall _ _ mkToolResultPart_isResult _
    simp only [List.isEmpty_cons, Bool.false_eq_true, if_false, List.map_cons]
    cases hter : ((hd :: tl).filter (fun tr => V2.isTerminal tr.status)).map V2.mkToolResultPart with
    | nil =>
      simp only [hter, List.isEmpty_nil, if_true, List.append_nil]
      simp only [List.map_cons] at hCallsDrop
      simpa [resultPartsOf, partsOf, hter] using hCallsDrop
    | cons r2 t2 =>
      rw [hter] at hResultsKeep
      simp only [hter, List.isEmpty_cons, Bool.false_eq_true, if_false, List.singleton_append]
      simp only [List.map_cons] at hCallsDrop
      simp only [resultPartsOf, partsOf, List.flatMap_cons, List.flatMap_nil, List.append_nil,
        List.filter_append, hCallsDrop, hResultsKeep, hter, List.nil_append]

/-- C4.  The history-replay output for one assistant message: at most one
synthetic assistant message holding the tool-call parts of every
client-executed (non-provider) invocation, immediately followed by at most one
synthetic `tool`-role message holding exactly the tool-result parts of the
terminal (`done`/`error`/`cancelled`) invocations; provider-executed
invocations contribute no parts (they are excluded from
`replayableResponses`, and with none replayable the output is empty); a
cancelled invocation with a null/absent response gets the literal value
`cancelled`; `error`/`cancelled` statuses tag the output as the error-text
variant, `done` does not. -/
theorem claim_c4_tool_history_replay (pj : String → Option JsonVal)
    (blocks : List V2.ReplayToolBlock) (tr : V2.McpToolResponse) :
    toolHistoryShape (V2.buildToolHistoryMessages pj blocks) = true
    ∧ countParts (fun p => RequestPart.isToolCallPart p) (V2.buildToolHistoryMessages pj blocks)
      = (V2.replayableResponses blocks).length
    ∧ resultPartsOf (V2.buildToolHistoryMessages pj blocks)
      = ((V2.replayableResponses blocks).filter (fun tr => V2.isTerminal tr.status)).map
          V2.mkToolResultPart
    ∧ (V2.replayableResponses blocks = [] → V2.buildToolHistoryMessages pj blocks = [])
    ∧ (tr.status = V2.ToolStatus.cancelled → V2.responseNullish tr.response = true →
        V2.mkToolResultPart tr
          = RequestPart.toolResult (some (tr.toolCallId.getD tr.id)) (V2.replayToolName tr)
              (ToolOutput.replay true (some "cancelled")))
    ∧ ((tr.status = V2.ToolStatus.error ∨ tr.status = V2.ToolStatus.cancelled) →
        replayIsErrorText (V2.mkToolResultPart tr) = some true)
    ∧ (tr.status = V2.ToolStatus.done →
        replayIsErrorText (V2.mkToolResultPart tr) = some false) := by
  refine ⟨buildToolHistoryMessages_shape pj blocks, buildToolHistoryMessages_call_count pj blocks,
    buildToolHistoryMessages_results pj blocks, ?_, ?_, ?_, ?_⟩
  · intro hEmpty
    simp [V2.buildToolHistoryMessages, hEmpty]
  · intro hStatus hResp
    simp [V2.mkToolResultPart, hStatus, hResp]
  · intro hStatus
    rcases hStatus with h | h <;> simp [V2.mkToolResultPart, replayIsErrorText, h]
  · intro hStatus
    simp [V2.mkToolResultPart, replayIsErrorText, hStatus]

/-- Witness for C4: one provider-executed record, one done record, one
cancelled record without response, and one block without metadata. -/
theorem claim_c4_tool_history_replay_witness :
    toolHistoryShape (V2.buildToolHistoryMessages (fun _ => none) [V2.ReplayToolBlock.mk (some ⟨"p1", some "call_p", some ⟨some "provider", some "web_search"⟩, none, none, V2.ToolStatus.done, some (JsonVal.str "r")⟩),
       V2.ReplayToolBlock.mk (some ⟨"d1", none, some ⟨none, some "calc"⟩, some "calc2", some (JsonVal.str "2+2"), V2.ToolStatus.done, some (JsonVal.str "4")⟩),
       V2.ReplayToolBlock.mk (some ⟨"c1", some "call_c", none, some "slow_tool", none, V2.ToolStatus.cancelled, none⟩),
       V2.ReplayToolBlock.mk none]) = true
    ∧ countParts (fun p => RequestPart.isToolCallPart p)
        (V2.buildToolHistoryMessages (fun _ => none) [V2.ReplayToolBlock.mk (some ⟨"p1", some "call_p", some ⟨some "provider", some "web_search"⟩, none, none, V2.ToolStatus.done, some (JsonVal.str "r")⟩),
       V2.ReplayToolBlock.mk (some ⟨"d1", none, some ⟨none, some "calc"⟩, some "calc2", some (JsonVal.str "2+2"), V2.ToolStatus.done, some (JsonVal.str "4")⟩),
       V2.ReplayToolBlock.mk (some ⟨"c1", some "call_c", none, some "slow_tool", none, V2.ToolStatus.cancelled, none⟩),
       V2.ReplayToolBlock.mk none])
      = (V2.replayableResponses [V2.ReplayToolBlock.mk (some ⟨"p1", some "call_p", some ⟨some "provider", some "web_search"⟩, none, none, V2.ToolStatus.done, some (JsonVal.str "r")⟩),
       V2.ReplayToolBlock.mk (some ⟨"d1", none, some ⟨none, some "calc"⟩, some "calc2", some (JsonVal.str "2+2"), V2.ToolStatus.done, some (JsonVal.str "4")⟩),
       V2.ReplayToolBlock.mk (some ⟨"c1", some "call_c", none, some "slow_tool", none, V2.ToolStatus.cancelled, none⟩),
       V2.ReplayToolBlock.mk none]).length
    ∧ resultPartsOf (V2.buildToolHistoryMessages (fun _ => none) [V2.ReplayToolBlock.mk (some ⟨"p1", some "call_p", some ⟨some "provider", some "web_search"⟩, none, none, V2.ToolStatus.done, some (JsonVal.str "r")⟩),
       V2.ReplayToolBlock.mk (some ⟨"d1", none, some ⟨none, some "calc"⟩, some "calc2", some (JsonVal.str "2+2"), V2.ToolStatus.done, some (JsonVal.str "4")⟩),
       V2.ReplayToolBlock.mk (some ⟨"c1", some "call_c", none, some "slow_tool", none, V2.ToolStatus.cancelled, none⟩),
       V2.ReplayToolBlock.mk none])
      = ((V2.replayableResponses [V2.ReplayToolBlock.mk (some ⟨"p1", some "call_p", some ⟨some "provider", some "web_search"⟩, none, none, V2.ToolStatus.done, some (JsonVal.str "r")⟩),
       V2.ReplayToolBlock.mk (some ⟨"d1", none, some ⟨none, some "calc"⟩, some "calc2", some (JsonVal.str "2+2"), V2.ToolStatus.done, some (JsonVal.str "4")⟩),
       V2.ReplayToolBlock.mk (some ⟨"c1", some "call_c", none, some "slow_tool", none, V2.ToolStatus.cancelled, none⟩),
       V2.ReplayToolBlock.mk none]).filter (fun tr => V2.isTerminal tr.status)).map
          V2.mkToolResultPart
    ∧ (V2.replayableResponses [V2.ReplayToolBlock.mk (some ⟨"p1", some "call_p", some ⟨some "provider", some "web_search"⟩, none, none, V2.ToolStatus.done, some (JsonVal.str "r")⟩),
       V2.ReplayToolBlock.mk (some ⟨"d1", none, some ⟨none, some "calc"⟩, some "calc2", some (JsonVal.str "2+2"), V2.ToolStatus.done, some (JsonVal.str "4")⟩),
       V2.ReplayToolBlock.mk (some ⟨"c1", some "call_c", none, some "slow_tool", none, V2.ToolStatus.cancelled, none⟩),
       V2.ReplayToolBlock.mk none] = []
        → V2.buildToolHistoryMessages (fun _ => none) [V2.ReplayToolBlock.mk (some ⟨"p1", some "call_p", some ⟨some "provider", some "web_search"⟩, none, none, V2.ToolStatus.done, some (JsonVal.str "r")⟩),
       V2.ReplayToolBlock.mk (some ⟨"d1", none, some ⟨none, some "calc"⟩, some "calc2", some (JsonVal.str "2+2"), V2.ToolStatus.done, some (JsonVal.str "4")⟩),
       V2.ReplayToolBlock.mk (some ⟨"c1", some "call_c", none, some "slow_tool", none, V2.ToolStatus.cancelled, none⟩),
       V2.ReplayToolBlock.mk none] = [])
    ∧ ((⟨"c1", some "call_c", none, some "slow_tool", none, V2.ToolStatus.cancelled, none⟩ : V2.McpToolResponse).status = V2.ToolStatus.cancelled → V2.responseNullish (⟨"c1", some "call_c", none, some "slow_tool", none, V2.ToolStatus.cancelled, none⟩ : V2.McpToolResponse).response = true →
        V2.mkToolResultPart (⟨"c1", some "call_c", none, some "slow_tool", none, V2.ToolStatus.cancelled, none⟩ : V2.McpToolResponse)
          = RequestPart.toolResult (some ((⟨"c1", some "call_c", none, some "slow_tool", none, V2.ToolStatus.cancelled, none⟩ : V2.McpToolResponse).toolCallId.getD (⟨"c1", some "call_c", none, some "slow_tool", none, V2.ToolStatus.cancelled, none⟩ : V2.McpToolResponse).id)) (V2.replayToolName (⟨"c1", some "call_c", none, some "slow_tool", none, V2.ToolStatus.cancelled, none⟩ : V2.McpToolResponse))
              (ToolOutput.replay true (some "cancelled")))
    ∧ (((⟨"c1", some "call_c", none, some "slow_tool", none, V2.ToolStatus.cancelled, none⟩ : V2.McpToolResponse).status = V2.ToolStatus.error ∨ (⟨"c1", some "call_c", none, some "slow_tool", none, V2.ToolStatus.cancelled, none⟩ : V2.McpToolResponse).status = V2.ToolStatus.cancelled) →
        replayIsErrorText (V2.mkToolResultPart (⟨"c1", some "call_c", none, some "slow_tool", none, V2.ToolStatus.cancelled, none⟩ : V2.McpToolResponse)) = some true)
    ∧ ((⟨"c1", some "call_c", none, some "slow_tool", none, V2.ToolStatus.cancelled, none⟩ : V2.McpToolResponse).status = V2.ToolStatus.done →
        replayIsErrorText (V2.mkToolResultPart (⟨"c1", some "call_c", none, some "slow_tool", none, V2.ToolStatus.cancelled, none⟩ : V2.McpToolResponse)) = some false) :=
  claim_c4_tool_history_replay (fun _ => none) [V2.ReplayToolBlock.mk (some ⟨"p1", some "call_p", some ⟨some "provider", some "web_search"⟩, none, none, V2.ToolStatus.done, some (JsonVal.str "r")⟩),
       V2.ReplayToolBlock.mk (some ⟨"d1", none, some ⟨none, some "calc"⟩, some "calc2", some (JsonVal.str "2+2"), V2.ToolStatus.done, some (JsonVal.str "4")⟩),
       V2.ReplayToolBlock.mk (some ⟨"c1", some "call_c", none, some "slow_tool", none, V2.ToolStatus.cancelled, none⟩),
       V2.ReplayToolBlock.mk none] (⟨"c1", some "call_c", none, some "slow_tool", none, V2.ToolStatus.cancelled, none⟩ : V2.McpToolResponse)

/-- A handle-bearing step result starts with the `fileid://` prefix. -/
theorem userFileBlockStep_inl_handle
    (tf : FileMessageBlock → Model → Option FilePartData)
    (tt : FileMessageBlock → Option String) (model : Option Model)
    (fb : FileMessageBlock) (handle : String)
    (hstep : userFileBlockStep tf tt model fb = Sum.inl handle) :
    jsStartsWith handle "fileid://" = true := by
  unfold userFileBlockStep at hstep
  repeat' split at hstep
  all_goals first
    | (cases hstep; assumption)
    | simp at hstep

/-- Any early return of the user file-block loop carries a `fileid://`
handle. -/
theorem processUserFileBlocks_inl_handle
    (tf : FileMessageBlock → Model → Option FilePartData)
    (tt : FileMessageBlock → Option String) (model : Option Model)
    (fbs : List FileMessageBlock) (parts : List RequestPart)
    (handle : String) (acc : List RequestPart)
    (hrun : processUserFileBlocks tf tt model fbs parts = Sum.inl (handle, acc)) :
    jsStartsWith handle "fileid://" = true := by
  induction fbs generalizing parts with
  | nil => simp [processUserFileBlocks] at hrun
  | cons fb rest ih =>
    rw [processUserFileBlocks] at hrun
    cases hstep : userFileBlockStep tf tt model fb with
    | inl h =>
      rw [hstep] at hrun
      obtain ⟨hh, -⟩ : h = handle ∧ parts = acc := by
        cases hrun
        exact ⟨rfl, rfl⟩
      exact hh ▸ userFileBlockStep_inl_handle tf tt model fb h hstep
    | inr newParts =>
      rw [hstep] at hrun
      exact ih _ hrun

/-- Running the user file-block loop over a prefix of non-handle blocks
followed by a handle-sentinel block returns exactly that sentinel together
with the initial parts extended by the prefix blocks' contributions. -/
theorem processUserFileBlocks_prefix_handle
    (tf : FileMessageBlock → Model → Option FilePartData)
    (tt : FileMessageBlock → Option String) (m : Model)
    (fb : FileMessageBlock) (fbs2 : List FileMessageBlock) (s : String)
    (hStep : userFileBlockStep tf tt (some m) fb = Sum.inl s) :
    ∀ (fbs1 : List FileMessageBlock) (parts : List RequestPart),
    (∀ fb' ∈ fbs1, (userFileBlockStep tf tt (some m) fb').isRight = true) →
    processUserFileBlocks tf tt (some m) (fbs1 ++ fb :: fbs2) parts
      = Sum.inl (s, parts ++ fbs1.flatMap (userFileBlockNonHandleParts tf tt (some m))) := by
  intro fbs1
  induction fbs1 with
  | nil =>
    intro parts hEarlier
    rw [List.nil_append, processUserFileBlocks, hStep, List.flatMap_nil, List.append_nil]
  | cons fb' rest1 ih =>
    intro parts hEarlier
    have hR := hEarlier fb' (List.mem_cons_self _ _)
    cases hstep' : userFileBlockStep tf tt (some m) fb' with
    | inl h' => rw [hstep'] at hR; simp at hR
    | inr np =>
      rw [List.cons_append, processUserFileBlocks]
      simp only [hstep']
      rw [ih (parts ++ np) (fun fb'' hmem => hEarlier fb'' (List.mem_cons_of_mem _ hmem))]
      simp [userFileBlockNonHandleParts, hstep', List.append_assoc]

/-- C5.  A `user`-role (or `system`-role) message whose file blocks contain a
block natively converting to the opaque-handle sentinel `s` (the blocks
before it not themselves early-returning) compiles to exactly two request
messages: a `system` message whose content is that very sentinel string, then
a `user` message carrying exactly the parts accumulated so far — the text
part, the image parts and the earlier file blocks' parts, in order — or empty
string content when no parts were accumulated. -/
theorem claim_c5_handle_sentinel_split
    (readImage : String → Option (String × String))
    (tf : FileMessageBlock → Model → Option FilePartData)
    (tt : FileMessageBlock → Option String)
    (content : String) (fbs1 : List FileMessageBlock) (fb : FileMessageBlock)
    (fbs2 : List FileMessageBlock)
    (imageBlocks : List ImageMessageBlock) (isVisionModel : Bool) (m : Model)
    (imageParts : List RequestPart) (fp : FilePartData) (s : String)
    (hImg : (if isVisionModel then convertImageBlockToImagePart readImage imageBlocks
             else Except.ok []) = Except.ok imageParts)
    (hNative : tf fb m = some fp)
    (hData : fp.data = FileData.str s)
    (hSentinel : jsStartsWith s "fileid://" = true)
    (hEarlier : ∀ fb' ∈ fbs1, (userFileBlockStep tf tt (some m) fb').isRight = true) :
    convertMessageToUserModelMessage readImage tf tt content (fbs1 ++ fb :: fbs2) imageBlocks
        isVisionModel (some m)
      = Except.ok [⟨Role.system, MsgContent.str s⟩,
          ⟨Role.user,
            if (userAccumulatedParts tf tt m content imageParts fbs1).length > 0
            then MsgContent.parts (userAccumulatedParts tf tt m content imageParts fbs1)
            else MsgContent.str ""⟩] := by
  have hStep : userFileBlockStep tf tt (some m) fb = Sum.inl s := by
    simp [userFileBlockStep, hNative, hData, hSentinel]
  unfold convertMessageToUserModelMessage
  simp only [hImg]
  rw [processUserFileBlocks_prefix_handle tf tt m fb fbs2 s hStep fbs1
    ((if content.isEmpty then [] else [RequestPart.text content]) ++ imageParts) hEarlier]
  rfl

/-- Witness for C5: text content `summarize this`, an earlier file block
extracting to a text part, then the block whose native conversion yields the
handle `fileid://abc123` — the output is pinned to exactly that sentinel and
exactly those accumulated parts. -/
theorem claim_c5_handle_sentinel_split_witness :
    ((if false then convertImageBlockToImagePart (fun _ => none) [] else Except.ok [])
      = Except.ok ([] : List RequestPart))
    ∧ ((fun (fileBlock : FileMessageBlock) (_ : Model) =>
          if fileBlock.id = "f2"
          then some (FilePartData.mk (FileData.str "fileid://abc123") "application/pdf")
          else none) (FileMessageBlock.mk "f2") (Model.mk false false)
        = some (FilePartData.mk (FileData.str "fileid://abc123") "application/pdf"))
    ∧ jsStartsWith "fileid://abc123" "fileid://" = true
    ∧ (∀ fb' ∈ [FileMessageBlock.mk "f1"],
        (userFileBlockStep
          (fun (fileBlock : FileMessageBlock) (_ : Model) =>
            if fileBlock.id = "f2"
            then some (FilePartData.mk (FileData.str "fileid://abc123") "application/pdf")
            else none)
          (fun (fileBlock : FileMessageBlock) =>
            if fileBlock.id = "f1" then some "extracted text" else none)
          (some (Model.mk false false)) fb').isRight = true)
    ∧ convertMessageToUserModelMessage (fun _ => none)
        (fun (fileBlock : FileMessageBlock) (_ : Model) =>
          if fileBlock.id = "f2"
          then some (FilePartData.mk (FileData.str "fileid://abc123") "application/pdf")
          else none)
        (fun (fileBlock : FileMessageBlock) =>
          if fileBlock.id = "f1" then some "extracted text" else none)
        "summarize this" ([FileMessageBlock.mk "f1"] ++ [FileMessageBlock.mk "f2"]) [] false
        (some (Model.mk false false))
      = Except.ok [⟨Role.system, MsgContent.str "fileid://abc123"⟩,
          ⟨Role.user, MsgContent.parts
            [RequestPart.text "summarize this", RequestPart.text "extracted text"]⟩] :=
  ⟨rfl, by decide, by decide, by decide,
    by exact (claim_c5_handle_sentinel_split (fun _ => none)
        (fun fileBlock _ =>
          if fileBlock.id = "f2"
          then some (FilePartData.mk (FileData.str "fileid://abc123") "application/pdf")
          else none)
        (fun fileBlock => if fileBlock.id = "f1" then some "extracted text" else none)
        "summarize this" [FileMessageBlock.mk "f1"] (FileMessageBlock.mk "f2") [] [] false
        (Model.mk false false) []
        (FilePartData.mk (FileData.str "fileid://abc123") "application/pdf") "fileid://abc123"
        rfl (by decide) rfl (by decide) (by decide))⟩

/-- An assistant-role source message takes the assistant path and compiles to
one assistant message. -/
theorem convertMessageToSdkParam_assistant
    (ri : String → Option (String × String))
    (tf : FileMessageBlock → Model → Option FilePartData)
    (tt : FileMessageBlock → Option String)
    (msg : Message) (isV : Bool) (model : Option Model)
    (hRole : msg.role = Role.assistant) :
    MC.convertMessageToSdkParam ri tf tt msg isV model
      = Except.ok [MC.convertMessageToAssistantAndToolMessages tf tt msg.content msg.fileBlocks
          msg.toolBlocks msg.thinkingBlocks model] := by
  unfold MC.convertMessageToSdkParam
  rw [if_neg (by simp [hRole])]
  rfl

/-- A user-role source message takes the user path. -/
theorem convertMessageToSdkParam_user
    (ri : String → Option (String × String))
    (tf : FileMessageBlock → Model → Option FilePartData)
    (tt : FileMessageBlock → Option String)
    (msg : Message) (isV : Bool) (model : Option Model)
    (hRole : msg.role = Role.user) :
    MC.convertMessageToSdkParam ri tf tt msg isV model
      = convertMessageToUserModelMessage ri tf tt msg.content msg.fileBlocks msg.imageBlocks
          isV model := by
  unfold MC.convertMessageToSdkParam
  rw [if_pos (Or.inl hRole)]

/-- A user-path compilation that produced a single message produced a
`user`-role message. -/
theorem convertMessageToUserModelMessage_single_role
    (ri : String → Option (String × String))
    (tf : FileMessageBlock → Model → Option FilePartData)
    (tt : FileMessageBlock → Option String)
    (content : String) (fbs : List FileMessageBlock) (ibs : List ImageMessageBlock)
    (isV : Bool) (model : Option Model) (u : ModelMessage)
    (h : convertMessageToUserModelMessage ri tf tt content fbs ibs isV model
      = Except.ok [u]) :
    u.role = Role.user := by
  unfold convertMessageToUserModelMessage at h
  cases himg : (if isV then convertImageBlockToImagePart ri ibs else Except.ok []) with
  | error e =>
    simp only [himg] at h
    simp at h
  | ok imgs =>
    simp only [himg] at h
    cases hp : processUserFileBlocks tf tt model fbs
        ((if content.isEmpty then [] else [RequestPart.text content]) ++ imgs) with
    | inl pr =>
      obtain ⟨handle, acc⟩ := pr
      simp only [hp] at h
      simp at h
    | inr fps =>
      simp only [hp] at h
      cases h
      rfl

/-- Compiling an appended message list appends the compiled outputs. -/
theorem compileAll_append
    (ri : String → Option (String × String))
    (tf : FileMessageBlock → Model → Option FilePartData)
    (tt : FileMessageBlock → Option String) (isV : Bool) (model : Option Model)
    (l1 l2 : List Message) (r1 : List ModelMessage)
    (h1 : MC.compileAll ri tf tt isV model l1 = Except.ok r1) :
    MC.compileAll ri tf tt isV model (l1 ++ l2)
      = match MC.compileAll ri tf tt isV model l2 with
        | Except.error e => Except.error e
        | Except.ok r2 => Except.ok (r1 ++ r2) := by
  induction l1 generalizing r1 with
  | nil =>
    simp only [MC.compileAll] at h1
    cases h1
    cases h2 : MC.compileAll ri tf tt isV model l2 <;> simp [h2]
  | cons msg rest ih =>
    rw [MC.compileAll] at h1
    cases hc : MC.convertMessageToSdkParam ri tf tt msg isV model with
    | error e => rw [hc] at h1; simp at h1
    | ok sdkMessage =>
      rw [hc] at h1
      cases hr : MC.compileAll ri tf tt isV model rest with
      | error e =>
        simp only [hr] at h1
        simp at h1
      | ok tail =>
        simp only [hr] at h1
        cases h1
        rw [List.cons_append, MC.compileAll, hc, ih tail hr]
        cases h2 : MC.compileAll ri tf tt isV model l2 <;> simp [h2]

/-- JavaScript's `slice(-2)` on a list ending in two known elements. -/
theorem jsSliceLast2_append_two {α : Type} (l : List α) (x y : α) :
    MC.jsSliceLast2 (l ++ [x, y]) = [x, y] := by
  unfold MC.jsSliceLast2
  have hlen : (l ++ [x, y]).length - 2 = l.length := by simp
  rw [hlen, List.drop_left]

/-- The last element of a list ending in two known elements. -/
theorem getLast_append_pair {α : Type} (l : List α) (x y : α) :
    (l ++ [x, y]).getLast? = some y := by
  rw [show l ++ [x, y] = (l ++ [x]) ++ [y] by simp, List.getLast?_concat]

/-- C6.  For an image-enhancement model and a 3+-message conversation ending
in an assistant message followed by a user message (each compiling to a
single message, the prefix compiling cleanly), the compiler returns: the first
compiled `system` message if any exists, then the compiled assistant message,
then the compiled user message whose parts are its previously compiled parts
(a text part first when it was plain text) followed by the assistant source
message's image parts; the final output message has role `user`. -/
theorem claim_c6_image_enhancement_postpass
    (ri : String → Option (String × String))
    (tf : FileMessageBlock → Model → Option FilePartData)
    (tt : FileMessageBlock → Option String)
    (ms : List Message) (mA mU : Message) (model : Model)
    (pre : List ModelMessage) (u : ModelMessage) (imageParts : List RequestPart)
    (hEnh : model.isImageEnhancement = true)
    (hLen : 1 ≤ ms.length)
    (hRoleA : mA.role = Role.assistant)
    (hRoleU : mU.role = Role.user)
    (hPre : MC.compileAll ri tf tt model.isVision (some model) ms = Except.ok pre)
    (hU : convertMessageToUserModelMessage ri tf tt mU.content mU.fileBlocks mU.imageBlocks
        model.isVision (some model) = Except.ok [u])
    (hImg : convertImageBlockToImagePart ri mA.imageBlocks = Except.ok imageParts) :
    MC.convertMessagesToSdkMessages ri tf tt (ms ++ [mA, mU]) model
      = Except.ok ((pre.filter (fun m => m.role == Role.system)).take 1
          ++ [MC.convertMessageToAssistantAndToolMessages tf tt mA.content mA.fileBlocks
                mA.toolBlocks mA.thinkingBlocks (some model),
              ⟨Role.user, MC.mergeUserContent u.content imageParts⟩])
    ∧ ((pre.filter (fun m => m.role == Role.system)).take 1
          ++ [MC.convertMessageToAssistantAndToolMessages tf tt mA.content mA.fileBlocks
                mA.toolBlocks mA.thinkingBlocks (some model),
              ⟨Role.user, MC.mergeUserContent u.content imageParts⟩]).getLast?
      = some ⟨Role.user, MC.mergeUserContent u.content imageParts⟩ := by
  refine ⟨?_, by
    rw [show (pre.filter (fun m => m.role == Role.system)).take 1
          ++ [MC.convertMessageToAssistantAndToolMessages tf tt mA.content mA.fileBlocks
                mA.toolBlocks mA.thinkingBlocks (some model),
              ⟨Role.user, MC.mergeUserContent u.content imageParts⟩]
        = ((pre.filter (fun m => m.role == Role.system)).take 1
          ++ [MC.convertMessageToAssistantAndToolMessages tf tt mA.content mA.fileBlocks
                mA.toolBlocks mA.thinkingBlocks (some model)])
          ++ [⟨Role.user, MC.mergeUserContent u.content imageParts⟩] by simp,
      List.getLast?_concat]⟩
  have huRole : u.role = Role.user :=
    convertMessageToUserModelMessage_single_role ri tf tt _ _ _ _ _ u hU
  have hUSdk : MC.convertMessageToSdkParam ri tf tt mU model.isVision (some model)
      = Except.ok [u] := by
    rw [convertMessageToSdkParam_user ri tf tt mU model.isVision (some model) hRoleU, hU]
  have hASdk := convertMessageToSdkParam_assistant ri tf tt mA model.isVision (some model) hRoleA
  have hTail : MC.compileAll ri tf tt model.isVision (some model) [mA, mU]
      = Except.ok [MC.convertMessageToAssistantAndToolMessages tf tt mA.content mA.fileBlocks
          mA.toolBlocks mA.thinkingBlocks (some model), u] := by
    rw [MC.compileAll, hASdk]
    simp only [MC.compileAll, hUSdk]
    rfl
  have hAll : MC.compileAll ri tf tt model.isVision (some model) (ms ++ [mA, mU])
      = Except.ok (pre ++ [MC.convertMessageToAssistantAndToolMessages tf tt mA.content
          mA.fileBlocks mA.toolBlocks mA.thinkingBlocks (some model), u]) := by
    rw [compileAll_append ri tf tt model.isVision (some model) ms [mA, mU] pre hPre, hTail]
  have hCond : model.isImageEnhancement = true ∧ 3 ≤ (ms ++ [mA, mU]).length :=
    ⟨hEnh, by simp; omega⟩
  have fA : [mA, mU].filter (fun m => m.role == Role.assistant) = [mA] := by
    simp [List.filter_cons, hRoleA, hRoleU]
  have fASdk : [MC.convertMessageToAssistantAndToolMessages tf tt mA.content mA.fileBlocks
      mA.toolBlocks mA.thinkingBlocks (some model), u].filter
        (fun m => m.role == Role.assistant)
      = [MC.convertMessageToAssistantAndToolMessages tf tt mA.content mA.fileBlocks
          mA.toolBlocks mA.thinkingBlocks (some model)] := by
    simp [List.filter_cons, huRole, MC.convertMessageToAssistantAndToolMessages]
  have fUSdk : [MC.convertMessageToAssistantAndToolMessages tf tt mA.content mA.fileBlocks
      mA.toolBlocks mA.thinkingBlocks (some model), u].filter (fun m => m.role == Role.user)
      = [u] := by
    simp [List.filter_cons, huRole, MC.convertMessageToAssistantAndToolMessages]
  have fSys2 : [MC.convertMessageToAssistantAndToolMessages tf tt mA.content mA.fileBlocks
      mA.toolBlocks mA.thinkingBlocks (some model), u].filter (fun m => m.role == Role.system)
      = [] := by
    simp [List.filter_cons, huRole, MC.convertMessageToAssistantAndToolMessages]
  unfold MC.convertMessagesToSdkMessages
  simp only [hAll]
  rw [if_pos hCond, jsSliceLast2_append_two ms mA mU,
    jsSliceLast2_append_two pre _ u, fA, fASdk, fUSdk]
  simp only [List.head?, hImg, List.filter_append, fSys2, List.append_nil]
  cases hsys : pre.filter (fun m => m.role == Role.system) with
  | nil => simp [huRole]
  | cons s0 tlr => simp [huRole]

/-- Witness for C6: a 3-message conversation `[user, assistant(one image),
user(text)]` with a vision-capable image-enhancement model. -/
theorem claim_c6_image_enhancement_postpass_witness :
    MC.convertMessagesToSdkMessages (fun (_ : String) => (none : Option (String × String))) (fun (_ : FileMessageBlock) (_ : Model) => (none : Option FilePartData)) (fun (_ : FileMessageBlock) => (none : Option String))
        ([Message.mk Role.user "draw a cat" [] [] [] []] ++ [(Message.mk Role.assistant "here you go" [] [ImageMessageBlock.mk none (some "https://img/cat.png")] [] []), (Message.mk Role.user "make it blue" [] [] [] [])]) (Model.mk true true)
      = Except.ok (([ModelMessage.mk Role.user (MsgContent.parts [RequestPart.text "draw a cat"])].filter (fun m => m.role == Role.system)).take 1 ++ [MC.convertMessageToAssistantAndToolMessages (fun (_ : FileMessageBlock) (_ : Model) => (none : Option FilePartData)) (fun (_ : FileMessageBlock) => (none : Option String)) (Message.mk Role.assistant "here you go" [] [ImageMessageBlock.mk none (some "https://img/cat.png")] [] []).content (Message.mk Role.assistant "here you go" [] [ImageMessageBlock.mk none (some "https://img/cat.png")] [] []).fileBlocks (Message.mk Role.assistant "here you go" [] [ImageMessageBlock.mk none (some "https://img/cat.png")] [] []).toolBlocks (Message.mk Role.assistant "here you go" [] [ImageMessageBlock.mk none (some "https://img/cat.png")] [] []).thinkingBlocks (some (Model.mk true true)), (ModelMessage.mk Role.user (MC.mergeUserContent (ModelMessage.mk Role.user (MsgContent.parts [RequestPart.text "make it blue"])).content [RequestPart.image "https://img/cat.png" none]))])
    ∧ (([ModelMessage.mk Role.user (MsgContent.parts [RequestPart.text "draw a cat"])].filter (fun m => m.role == Role.system)).take 1 ++ [MC.convertMessageToAssistantAndToolMessages (fun (_ : FileMessageBlock) (_ : Model) => (none : Option FilePartData)) (fun (_ : FileMessageBlock) => (none : Option String)) (Message.mk Role.assistant "here you go" [] [ImageMessageBlock.mk none (some "https://img/cat.png")] [] []).content (Message.mk Role.assistant "here you go" [] [ImageMessageBlock.mk none (some "https://img/cat.png")] [] []).fileBlocks (Message.mk Role.assistant "here you go" [] [ImageMessageBlock.mk none (some "https://img/cat.png")] [] []).toolBlocks (Message.mk Role.assistant "here you go" [] [ImageMessageBlock.mk none (some "https://img/cat.png")] [] []).thinkingBlocks (some (Model.mk true true)), (ModelMessage.mk Role.user (MC.mergeUserContent (ModelMessage.mk Role.user (MsgContent.parts [RequestPart.text "make it blue"])).content [RequestPart.image "https://img/cat.png" none]))]).getLast? = some (ModelMessage.mk Role.user (MC.mergeUserContent (ModelMessage.mk Role.user (MsgContent.parts [RequestPart.text "make it blue"])).content [RequestPart.image "https://img/cat.png" none])) :=
  claim_c6_image_enhancement_postpass (fun (_ : String) => (none : Option (String × String))) (fun (_ : FileMessageBlock) (_ : Model) => (none : Option FilePartData)) (fun (_ : FileMessageBlock) => (none : Option String)) [Message.mk Role.user "draw a cat" [] [] [] []] (Message.mk Role.assistant "here you go" [] [ImageMessageBlock.mk none (some "https://img/cat.png")] [] []) (Message.mk Role.user "make it blue" [] [] [] []) (Model.mk true true)
    [ModelMessage.mk Role.user (MsgContent.parts [RequestPart.text "draw a cat"])] (ModelMessage.mk Role.user (MsgContent.parts [RequestPart.text "make it blue"])) [RequestPart.image "https://img/cat.png" none]
    rfl (by decide) rfl rfl rfl rfl rfl
